import Mathlib

/-!
Verification of the message-generation core of a Codeforces daily-report bot
(src/index.js). JavaScript strings are modelled as lists of UTF-16 code
units, so that the length measured by the model agrees with the length
measured by the JavaScript `.length` property, including for the emoji
that appear in the configured messages. Timestamps and ratings are
modelled as integers; the fractional median is modelled as a rational.
Fields that JavaScript may leave `undefined` are modelled as `Option`;
an evaluation that would throw a `TypeError` is modelled as `none`.
-/

set_option maxRecDepth 100000

/-- A JavaScript string: its list of UTF-16 code units. -/
abbrev JStr := List Nat

/-- UTF-16 encoding of a single code point: one unit below 0x10000, a
surrogate pair above. -/
def utf16Char (c : Char) : List Nat :=
  if c.toNat < 65536 then [c.toNat]
  else [55296 + (c.toNat - 65536) / 1024, 56320 + (c.toNat - 65536) % 1024]

/-- UTF-16 encoding of a whole string. -/
def utf16 (s : String) : JStr :=
  (s.data.map utf16Char).flatten

/-- Tweet character limit, src/index.js line 27. -/
def TWEET_CHAR_LIMIT : Nat := 280

/-- One entry of the praise rule table, src/index.js lines 30-66. -/
structure PraiseCategory where
  minProblems : Nat
  minMedianRating : Nat
  message : JStr
deriving DecidableEq

/-- Praise rule table, src/index.js lines 30-66, in source order. -/
def PRAISE_CATEGORIES : List PraiseCategory := [
  ⟨10, 1600, utf16 "🔥 ABSOLUTE LEGEND! 10+ problems with median 1600+! You're on fire! 🚀"⟩,
  ⟨8, 1400, utf16 "⭐ Outstanding work! 8+ problems with solid ratings! Keep this momentum! 💪"⟩,
  ⟨5, 1200, utf16 "🎯 Great grind! 5+ problems solved, you're building strong habits! 💡"⟩,
  ⟨5, 0, utf16 "✅ Nice! 5+ problems solved. Consistency is key! 📈"⟩,
  ⟨3, 1400, utf16 "👏 Quality over quantity! 3+ tough problems conquered! 🧠"⟩,
  ⟨3, 0, utf16 "👍 Solid work! 3 problems down. Keep pushing! 💻"⟩,
  ⟨1, 0, utf16 "✨ Every problem counts! Good start, let's do more tomorrow! 🌱"⟩]

/-- Insult pool for a zero-problem day, src/index.js lines 69-77, in
source order. -/
def INSULT_MESSAGES : List JStr := [
  utf16 "Zero problems solved? Even a potato could've at least tried one. 🥔",
  utf16 "Congratulations on achieving absolutely nothing today. Your keyboard must be proud of its vacation. ⌨️",
  utf16 "0 problems solved. The only thing you're solving is how to waste 24 hours. ⏰",
  utf16 "Your competitive programming career is looking as empty as your problem count today. 📉",
  utf16 "Even Hello World wouldn't want to be solved by you today. Pathetic. 💀",
  utf16 "24 hours and 0 problems? You could've at least accidentally solved one. 🤡",
  utf16 "Your consistency is impressive - consistently disappointing. 0 problems again. 😴"]

/-- The problem descriptor embedded in a raw submission. Every field can
be absent (`undefined` in JavaScript). -/
structure Problem where
  contestId : Option Int
  index : Option String
  name : Option String
  rating : Option Int
deriving DecidableEq

/-- A raw submission from the judge API. Fields can be absent. -/
structure Submission where
  creationTimeSeconds : Option Int
  verdict : Option String
  problem : Option Problem
deriving DecidableEq

/-- The value stored per deduplicated solved problem, src/index.js
lines 127-132. The name is kept as stored (possibly `undefined`). -/
structure SolvedProblem where
  name : Option String
  rating : Int
  contestId : Option Int
  index : Option String
deriving DecidableEq

/-- JavaScript template-literal rendering of a possibly absent number
field: an absent field renders as the text undefined. -/
def jsNumField (o : Option Int) : String :=
  match o with
  | none => "undefined"
  | some n => toString n

/-- JavaScript template-literal rendering of a possibly absent string
field. -/
def jsStrField (o : Option String) : String :=
  match o with
  | none => "undefined"
  | some s => s

/-- JavaScript expression r || 0 applied to a possibly absent rating:
an absent rating and a zero rating both give 0; a present nonzero
rating gives itself. -/
def jsOrZero (o : Option Int) : Int :=
  match o with
  | none => 0
  | some v => v

/-- The qualification guard of src/index.js line 124: the submission
timestamp is at least now minus 86400 seconds and the verdict equals
OK. An absent timestamp compares as NaN, hence false; an absent
verdict is not OK. -/
def qualifies (now : Int) (s : Submission) : Bool :=
  (match s.creationTimeSeconds with
   | some t => decide (now - 86400 ≤ t)
   | none => false) &&
  decide (s.verdict = some "OK")

/-- The dedup key of src/index.js line 125: string concatenation of the
contest id and the problem index. -/
def problemKey (p : Problem) : String :=
  jsNumField p.contestId ++ jsStrField p.index

/-- The dedup key of a submission, absent when the submission carries no
problem descriptor. -/
def keyOf (s : Submission) : Option String :=
  s.problem.map problemKey

/-- The record stored in the dedup map, src/index.js lines 127-132. -/
def entryOf (p : Problem) : SolvedProblem :=
  { name := p.name, rating := jsOrZero p.rating,
    contestId := p.contestId, index := p.index }

/-- The key recomputable from a stored record; it coincides with the
map key the record was stored under. -/
def entryKey (v : SolvedProblem) : String :=
  jsNumField v.contestId ++ jsStrField v.index

/-- The forEach loop of src/index.js lines 123-135 over the insertion
ordered map: the accumulator lists key-value pairs in insertion order.
`none` models the TypeError thrown when a qualifying submission has no
problem descriptor. -/
def filterGo (now : Int) : List Submission → List (String × SolvedProblem) →
    Option (List (String × SolvedProblem))
  | [], acc => some acc
  | s :: rest, acc =>
    if qualifies now s then
      match s.problem with
      | none => none
      | some p =>
        let key := problemKey p
        if acc.any (fun e => decide (e.1 = key)) then filterGo now rest acc
        else filterGo now rest (acc ++ [(key, entryOf p)])
    else filterGo now rest acc

/-- filterLast24Hours, src/index.js lines 117-138, with the wall clock
hoisted into the parameter `now` (the source computes it from
Date.now()). A `none` submission list models the JavaScript null, on
which the forEach call throws; this is modelled by the `none` result. -/
def filterLast24Hours (now : Int) (submissions : Option (List Submission)) :
    Option (List SolvedProblem) :=
  match submissions with
  | none => none
  | some subs => (filterGo now subs []).map (List.map Prod.snd)

/-- Ascending insertion used to model the numeric ascending sort of
src/index.js line 144. -/
def insertAsc (x : Int) : List Int → List Int
  | [] => [x]
  | y :: ys => if x ≤ y then x :: y :: ys else y :: insertAsc x ys

/-- Ascending sort (insertion sort) modelling ratings.sort of
src/index.js line 144. -/
def sortAsc (l : List Int) : List Int := l.foldr insertAsc []

/-- getMedianRating, src/index.js lines 141-151: keep ratings strictly
above 0, sort ascending, return 0 when none qualify, the middle
element for an odd count and the mean of the two middle elements for
an even count. -/
def getMedianRating (problems : List SolvedProblem) : ℚ :=
  if problems.length = 0 then 0 else
  let ratings := sortAsc ((problems.map (fun p => p.rating)).filter (fun r => decide (0 < r)))
  if ratings.length = 0 then 0 else
  let mid := ratings.length / 2
  if ratings.length % 2 = 0 then
    ((ratings.getD (mid - 1) 0 : ℚ) + (ratings.getD mid 0 : ℚ)) / 2
  else (ratings.getD mid 0 : ℚ)

/-- Math.round for the nonnegative medians that occur here: floor of
the argument plus one half (JavaScript rounds halves up). -/
def jsRound (q : ℚ) : Int := (q + 1/2).floor

/-- The first-match scan of the praise table, src/index.js lines
177-183, returning the position and the matching rule. -/
def findCat (count : Nat) (median : ℚ) : List PraiseCategory → Option (Nat × PraiseCategory)
  | [] => none
  | c :: rest =>
    if c.minProblems ≤ count ∧ (c.minMedianRating : ℚ) ≤ median then some (0, c)
    else (findCat count median rest).map (fun jc => (jc.1 + 1, jc.2))

/-- The praise text selected by the scan; the empty string when no rule
matches (the loop of src/index.js initialises praise to the empty
string). -/
def selectPraise (count : Nat) (median : ℚ) : JStr :=
  match findCat count median PRAISE_CATEGORIES with
  | some jc => jc.2.message
  | none => []

/-- truncateToLimit, src/index.js lines 154-161: keep a message within
the limit, else cut to limit minus 3 units and append an ellipsis. -/
def truncateToLimit (m : JStr) (limit : Nat) : JStr :=
  if m.length ≤ limit then m
  else m.take (limit - 3) ++ utf16 "..."

/-- The bracketed rating annotation of src/index.js line 208; a zero
rating is falsy in JavaScript and produces no annotation. -/
def ratingAnnotation (r : Int) : JStr :=
  if r = 0 then [] else utf16 (" [" ++ toString r ++ "]")

/-- One rendered problem line, src/index.js line 209 (i is the zero
based position). -/
def problemLine (i : Nat) (p : SolvedProblem) : JStr :=
  utf16 (toString (i + 1) ++ ". " ++ jsStrField p.name) ++
    ratingAnnotation p.rating ++ utf16 "\n"

/-- The problems-list loop of src/index.js lines 206-223: append lines
while they fit in the available space; at the first line that does not
fit, append the remainder indicator and stop. The tracked current
length always equals the accumulated list length. -/
def buildList (avail : Int) (total : Nat) :
    List SolvedProblem → Nat → Nat → JStr → JStr
  | [], _, _, acc => acc
  | p :: rest, i, added, acc =>
    let line := problemLine i p
    if (acc.length : Int) + line.length ≤ avail then
      buildList avail total rest (i + 1) (added + 1) (acc ++ line)
    else
      if 0 < total - added then
        acc ++ utf16 ("...and " ++ toString (total - added) ++ " more\n")
      else acc

/-- The message header of src/index.js lines 186-193. -/
def headerOf (count : Nat) (median : ℚ) (praise : JStr) : JStr :=
  utf16 "📊 CF Daily Report:\n\n" ++ praise ++ utf16 "\n\n" ++
  utf16 ("✅ Problems: " ++ toString count) ++
  (if 0 < median then utf16 (" | 📈 Median: " ++ toString (jsRound median)) else []) ++
  utf16 "\n\n"

/-- The fixed footer of src/index.js line 195. -/
def footerJ : JStr := utf16 "\n#Codeforces #CP #100DaysOfCode"

/-- The message assembled for a nonzero problem count before the final
safety check, src/index.js lines 174-225. -/
def renderedMessage (problems : List SolvedProblem) : JStr :=
  let count := problems.length
  let median := getMedianRating problems
  let praise := selectPraise count median
  let header := headerOf count median praise
  let headerFooterLength := header.length + footerJ.length
  let availableSpace : Int := (TWEET_CHAR_LIMIT : Int) - headerFooterLength - 10
  let problemsList := buildList availableSpace count problems 0 0 (utf16 "📝 Problems:\n")
  header ++ problemsList ++ footerJ

/-- generateMessage, src/index.js lines 164-235, with the random insult
draw hoisted into the index parameter i (the source draws it from
Math.random, giving an index below the pool size). -/
def generateMessage (i : Nat) (problems : List SolvedProblem) : JStr :=
  if problems.length = 0 then
    truncateToLimit (utf16 "📊 CF Daily Report:\n\n" ++ INSULT_MESSAGES.getD i []) TWEET_CHAR_LIMIT
  else if TWEET_CHAR_LIMIT < (renderedMessage problems).length then
    truncateToLimit (renderedMessage problems) TWEET_CHAR_LIMIT
  else renderedMessage problems

/-- Decidable segment search: whether pat occurs contiguously in l. -/
def hasSeg (pat : JStr) : JStr → Bool
  | [] => pat.isEmpty
  | x :: t => pat.isPrefixOf (x :: t) || hasSeg pat t

/-- Shorthand for an unrated solved problem with the given name, used
by the concrete test inputs below. -/
def mkP (nm : String) : SolvedProblem := ⟨some nm, 0, none, none⟩

/-- A 122-character problem name sized so that its rendered line fills
the available space of a two-problem report exactly. -/
def longName : String := String.mk (List.replicate 122 'a')

/-- Concrete two-problem input whose rendered message measures 284
units, beyond the 280-unit limit, so the final safety check fires. -/
def probsOverflow : List SolvedProblem := [mkP longName, mkP "B"]

/-- Five one-letter unrated problems. -/
def probs5 : List SolvedProblem := [mkP "A", mkP "B", mkP "C", mkP "D", mkP "E"]

/-- Six one-letter unrated problems. -/
def probs6 : List SolvedProblem := probs5 ++ [mkP "F"]

/-- Ten one-letter unrated problems. -/
def probs10 : List SolvedProblem := probs6 ++ [mkP "G", mkP "H", mkP "I", mkP "J"]

/-- Eleven one-letter unrated problems. -/
def probs11 : List SolvedProblem := probs10 ++ [mkP "K"]

/-- Six problems whose 100-character names let only the first rendered
line fit, so the remainder indicator is appended. -/
def probs6long : List SolvedProblem := List.replicate 6 (mkP (String.mk (List.replicate 100 'b')))

/-- Unrated-free solved problem carrying only a rating, for the median
examples. -/
def mkRated (r : Int) : SolvedProblem := ⟨none, r, none, none⟩

/-- Accepted in-window submission for contest 12, problem index 3A. -/
def subA : Submission :=
  ⟨some 1000000, some "OK", some ⟨some 12, some "3A", some "P1", some 1000⟩⟩

/-- Accepted in-window submission for contest 123, problem index A. -/
def subB : Submission :=
  ⟨some 1000000, some "OK", some ⟨some 123, some "A", some "P2", some 1500⟩⟩

/-- The predicate satisfied by a submission that qualifies and whose
concatenated dedup key is k. -/
def fqual (now : Int) (k : String) (s : Submission) : Bool :=
  qualifies now s && decide (keyOf s = some k)

/-- First accepted in-window submission for contest 1, index A. -/
def subDupX : Submission :=
  ⟨some 1000000, some "OK", some ⟨some 1, some "A", some "X", some 1000⟩⟩

/-- Second accepted in-window submission for the same contest 1, index
A, with a different name and rating. -/
def subDupY : Submission :=
  ⟨some 1000000, some "OK", some ⟨some 1, some "A", some "Y", some 1200⟩⟩

/-- Accepted in-window submission for contest 123, index A. -/
def subColA : Submission :=
  ⟨some 1000000, some "OK", some ⟨some 123, some "A", some "X", some 1000⟩⟩

/-- Accepted in-window submission for contest 12, index 3A, present
twice in the counterexample batch. -/
def subColB : Submission :=
  ⟨some 1000000, some "OK", some ⟨some 12, some "3A", some "Y", some 1500⟩⟩

theorem truncateToLimit_length_le (m : JStr) (limit : Nat) (h3 : 3 ≤ limit) :
    (truncateToLimit m limit).length ≤ limit := by
  unfold truncateToLimit
  split
  · assumption
  · have h0 : (utf16 "...").length = 3 := by decide
    rw [List.length_append, List.length_take, h0]
    omega

/-- C1: for every insult draw and every input problem list, the message
returned by generateMessage has at most TWEET_CHAR_LIMIT (280) UTF-16
units, on the zero-count path and on the nonzero path alike. -/
theorem generateMessage_length_le_limit (i : Nat) (problems : List SolvedProblem) :
    (generateMessage i problems).length ≤ TWEET_CHAR_LIMIT := by
  unfold generateMessage
  split
  · exact truncateToLimit_length_le _ _ (by decide)
  · split
    · exact truncateToLimit_length_le _ _ (by decide)
    · omega

/-- C2 counterexample: at the concrete draw 0, the zero-count output is
not a member of the insult pool (the code prepends a report header). -/
theorem generateMessage_empty_not_mem_insults :
    ¬ (generateMessage 0 [] ∈ INSULT_MESSAGES) := by decide

/-- C2 amended: for every possible draw, the zero-count output is the
fixed report header followed by a pool member verbatim. -/
theorem generateMessage_empty_header_insult (i : Fin 7) :
    generateMessage i.val [] =
      utf16 "📊 CF Daily Report:\n\n" ++ INSULT_MESSAGES.getD i.val [] ∧
    INSULT_MESSAGES.getD i.val [] ∈ INSULT_MESSAGES := by
  fin_cases i <;> exact ⟨by decide, by decide⟩

/-- C3 counterexample: a concrete input whose rendered message exceeds
the budget, yet the returned output still contains the per-problem
listing marker, so it is not a header-only Brief rendering. -/
theorem overflow_output_keeps_listing :
    TWEET_CHAR_LIMIT < (renderedMessage probsOverflow).length ∧
    hasSeg (utf16 "📝 Problems:") (generateMessage 0 probsOverflow) = true := by decide

/-- C3 amended: whenever the rendered message exceeds the budget, the
code does not re-render a shorter mode; it truncates the oversized text
to 277 units, appends an ellipsis, and returns exactly 280 units. -/
theorem generateMessage_overflow_truncates (i : Nat) (problems : List SolvedProblem)
    (hne : problems ≠ [])
    (hover : TWEET_CHAR_LIMIT < (renderedMessage problems).length) :
    generateMessage i problems =
      (renderedMessage problems).take (TWEET_CHAR_LIMIT - 3) ++ utf16 "..." ∧
    (generateMessage i problems).length = TWEET_CHAR_LIMIT := by
  have hlen : ¬ problems.length = 0 := by
    simpa [List.length_eq_zero] using hne
  unfold generateMessage
  rw [if_neg hlen, if_pos hover]
  refine ⟨by rw [truncateToLimit, if_neg (by omega)], ?_⟩
  rw [truncateToLimit, if_neg (by omega)]
  have h0 : (utf16 "...").length = 3 := by decide
  have hT : TWEET_CHAR_LIMIT = 280 := rfl
  rw [List.length_append, List.length_take, h0]
  omega

/-- Witness for the amended C3 theorem at the concrete oversized
input. -/
theorem generateMessage_overflow_truncates_witness :
    generateMessage 0 probsOverflow =
      (renderedMessage probsOverflow).take (TWEET_CHAR_LIMIT - 3) ++ utf16 "..." ∧
    (generateMessage 0 probsOverflow).length = TWEET_CHAR_LIMIT :=
  generateMessage_overflow_truncates 0 probsOverflow (by decide) (by decide)

/-- C4 counterexample: with six short-named problems the output lists a
fourth problem, contradicting a Compact mode that lists only the first
three. -/
theorem six_problems_lists_fourth :
    hasSeg (utf16 "4. D") (generateMessage 0 probs6) = true := by decide

lemma findCat_sound (count : Nat) (median : ℚ) :
    ∀ (cats : List PraiseCategory) (j : Nat) (cat : PraiseCategory),
      findCat count median cats = some (j, cat) →
      cat ∈ cats ∧ cat.minProblems ≤ count ∧ (cat.minMedianRating : ℚ) ≤ median := by
  intro cats
  induction cats with
  | nil => intro j cat h; simp [findCat] at h
  | cons c rest ih =>
    intro j cat h
    rw [findCat] at h
    split at h
    · rename_i hc
      simp only [Option.some.injEq, Prod.mk.injEq] at h
      obtain ⟨rfl, rfl⟩ := h
      exact ⟨List.mem_cons_self _ _, hc.1, hc.2⟩
    · rcases Option.map_eq_some'.mp h with ⟨⟨j0, cat0⟩, hrec, heq⟩
      simp only [Prod.mk.injEq] at heq
      obtain ⟨rfl, rfl⟩ := heq
      obtain ⟨hm, h1, h2⟩ := ih j0 cat0 hrec
      exact ⟨List.mem_cons_of_mem _ hm, h1, h2⟩

lemma findCat_mono (median : ℚ) {c1 c2 : Nat} (hc : c1 ≤ c2) :
    ∀ (cats : List PraiseCategory) (j1 : Nat) (cat1 : PraiseCategory),
      findCat c1 median cats = some (j1, cat1) →
      ∃ j2 cat2, findCat c2 median cats = some (j2, cat2) ∧ j2 ≤ j1 := by
  intro cats
  induction cats with
  | nil => intro j1 cat1 h; simp [findCat] at h
  | cons c rest ih =>
    intro j1 cat1 h
    rw [findCat] at h
    by_cases h2 : c.minProblems ≤ c2 ∧ (c.minMedianRating : ℚ) ≤ median
    · exact ⟨0, c, by rw [findCat, if_pos h2], Nat.zero_le _⟩
    · have h1 : ¬ (c.minProblems ≤ c1 ∧ (c.minMedianRating : ℚ) ≤ median) := by
        intro hh; exact h2 ⟨le_trans hh.1 hc, hh.2⟩
      rw [if_neg h1] at h
      rcases Option.map_eq_some'.mp h with ⟨⟨j0, cat0⟩, hrec, heq⟩
      simp only [Prod.mk.injEq] at heq
      obtain ⟨rfl, rfl⟩ := heq
      obtain ⟨j2, cat2, hf, hle⟩ := ih j0 cat0 hrec
      refine ⟨j2 + 1, cat2, ?_, by omega⟩
      rw [findCat, if_neg h2, hf]
      rfl

lemma findCat_isSome_of_mem (count : Nat) (median : ℚ) :
    ∀ (cats : List PraiseCategory),
      (∃ c ∈ cats, c.minProblems ≤ count ∧ (c.minMedianRating : ℚ) ≤ median) →
      ∃ j cat, findCat count median cats = some (j, cat) := by
  intro cats
  induction cats with
  | nil => rintro ⟨c, hc, _⟩; simp at hc
  | cons c rest ih =>
    rintro ⟨c0, hc0, hcond⟩
    by_cases hh : c.minProblems ≤ count ∧ (c.minMedianRating : ℚ) ≤ median
    · exact ⟨0, c, by rw [findCat, if_pos hh]⟩
    · rcases List.mem_cons.mp hc0 with rfl | hmem
      · exact absurd hcond hh
      · obtain ⟨j, cat, hf⟩ := ih ⟨c0, hmem, hcond⟩
        refine ⟨j + 1, cat, ?_⟩
        rw [findCat, if_neg hh, hf]
        rfl

lemma findCat_first (count : Nat) (median : ℚ) :
    ∀ (cats : List PraiseCategory) (j : Nat) (cat : PraiseCategory),
      findCat count median cats = some (j, cat) →
      ∀ k (hlen : k < cats.length), k < j →
        ¬ ((cats.get ⟨k, hlen⟩).minProblems ≤ count ∧
           ((cats.get ⟨k, hlen⟩).minMedianRating : ℚ) ≤ median) := by
  intro cats
  induction cats with
  | nil => intro j cat h; simp [findCat] at h
  | cons c rest ih =>
    intro j cat h k hlen hk
    rw [findCat] at h
    split at h
    · simp only [Option.some.injEq, Prod.mk.injEq] at h
      omega
    · rename_i hcond
      rcases Option.map_eq_some'.mp h with ⟨⟨j0, cat0⟩, hrec, heq⟩
      simp only [Prod.mk.injEq] at heq
      obtain ⟨rfl, rfl⟩ := heq
      cases k with
      | zero => simpa using hcond
      | succ k0 =>
        have := ih j0 cat0 hrec k0 (by simpa using hlen) (by omega)
        simpa using this

/-- C5: the praise scan returns the first rule whose thresholds are both
met; for a fixed median a larger count never selects a later rule; for
count at least 1 and nonnegative median the scan succeeds and the
selected message is nonempty, because the table ends with the rule with
minProblems 1 and minMedianRating 0. -/
theorem praise_first_match_monotone_nonempty
    (count1 count2 : Nat) (median : ℚ)
    (h1 : 1 ≤ count1) (h12 : count1 ≤ count2) (hm : 0 ≤ median) :
    ∃ j1 cat1 j2 cat2,
      findCat count1 median PRAISE_CATEGORIES = some (j1, cat1) ∧
      findCat count2 median PRAISE_CATEGORIES = some (j2, cat2) ∧
      j2 ≤ j1 ∧
      cat1.minProblems ≤ count1 ∧ (cat1.minMedianRating : ℚ) ≤ median ∧
      (∀ k (hlen : k < PRAISE_CATEGORIES.length), k < j1 →
        ¬ ((PRAISE_CATEGORIES.get ⟨k, hlen⟩).minProblems ≤ count1 ∧
           ((PRAISE_CATEGORIES.get ⟨k, hlen⟩).minMedianRating : ℚ) ≤ median)) ∧
      selectPraise count1 median = cat1.message ∧
      cat1.message ≠ [] := by
  have hexists : ∃ c ∈ PRAISE_CATEGORIES,
      c.minProblems ≤ count1 ∧ (c.minMedianRating : ℚ) ≤ median := by
    refine ⟨⟨1, 0, utf16 "✨ Every problem counts! Good start, let's do more tomorrow! 🌱"⟩,
      by decide, h1, by simpa using hm⟩
  obtain ⟨j1, cat1, hf1⟩ := findCat_isSome_of_mem count1 median PRAISE_CATEGORIES hexists
  obtain ⟨j2, cat2, hf2, hle⟩ := findCat_mono median h12 PRAISE_CATEGORIES j1 cat1 hf1
  obtain ⟨hmem, hcnt, hmed⟩ := findCat_sound count1 median PRAISE_CATEGORIES j1 cat1 hf1
  have hne : cat1.message ≠ [] := by
    have hall : ∀ c ∈ PRAISE_CATEGORIES, c.message ≠ [] := by decide
    exact hall cat1 hmem
  exact ⟨j1, cat1, j2, cat2, hf1, hf2, hle, hcnt, hmed,
    findCat_first count1 median PRAISE_CATEGORIES j1 cat1 hf1,
    by rw [selectPraise, hf1], hne⟩

/-- Witness for the C5 theorem at counts 1 and 2 with median 0. -/
theorem praise_first_match_monotone_nonempty_witness :
    ∃ j1 cat1 j2 cat2,
      findCat 1 0 PRAISE_CATEGORIES = some (j1, cat1) ∧
      findCat 2 0 PRAISE_CATEGORIES = some (j2, cat2) ∧
      j2 ≤ j1 ∧
      cat1.minProblems ≤ 1 ∧ (cat1.minMedianRating : ℚ) ≤ 0 ∧
      (∀ k (hlen : k < PRAISE_CATEGORIES.length), k < j1 →
        ¬ ((PRAISE_CATEGORIES.get ⟨k, hlen⟩).minProblems ≤ 1 ∧
           ((PRAISE_CATEGORIES.get ⟨k, hlen⟩).minMedianRating : ℚ) ≤ 0)) ∧
      selectPraise 1 0 = cat1.message ∧
      cat1.message ≠ [] :=
  praise_first_match_monotone_nonempty 1 2 0 (by decide) (by decide) (by decide)

/-- C6: the median considers only ratings strictly above 0 in ascending
order, returning 0 when none qualify, the middle element for an odd
count and the mean of the two middle elements for an even count: rating
list [1200] gives 1200, [1000, 1400] gives 1200, the empty list gives
0, every all-nonpositive-rating list gives 0, and every qualifying pair
gives its arithmetic mean. -/
theorem getMedianRating_spec :
    getMedianRating [mkRated 1200] = 1200 ∧
    getMedianRating [mkRated 1000, mkRated 1400] = 1200 ∧
    getMedianRating [] = 0 ∧
    (∀ problems : List SolvedProblem,
      (∀ p ∈ problems, p.rating ≤ 0) → getMedianRating problems = 0) ∧
    (∀ r1 r2 : Int, 0 < r1 → r1 ≤ r2 →
      getMedianRating [mkRated r1, mkRated r2] = ((r1 : ℚ) + (r2 : ℚ)) / 2) := by
  refine ⟨by decide, by norm_num [getMedianRating, sortAsc, insertAsc, mkRated], by decide, ?_, ?_⟩
  · intro problems hall
    have hfil : (problems.map (fun p => p.rating)).filter (fun r => decide (0 < r)) = [] := by
      rw [List.filter_eq_nil_iff]
      intro a ha
      rcases List.mem_map.mp ha with ⟨p, hp, rfl⟩
      have := hall p hp
      simp only [decide_eq_true_eq]
      omega
    by_cases h0 : problems.length = 0
    · simp [getMedianRating, h0]
    · simp [getMedianRating, h0, hfil, sortAsc]
  · intro r1 r2 hpos hle
    have hpos2 : 0 < r2 := lt_of_lt_of_le hpos hle
    simp [getMedianRating, mkRated, sortAsc, insertAsc, hpos, hpos2, hle]

/-- Witness for the C6 theorem: the mean conjunct applied at ratings
1000 and 1400. -/
theorem getMedianRating_spec_witness :
    getMedianRating [mkRated 1000, mkRated 1400] = (((1000 : Int) : ℚ) + ((1400 : Int) : ℚ)) / 2 :=
  getMedianRating_spec.2.2.2.2 1000 1400 (by decide) (by decide)

/-- C7: the 24-hour window is inclusive of its lower bound: an accepted
submission stamped exactly now minus 86400 is normalized into the
output, and one a second earlier is excluded. -/
theorem window_boundary_inclusive (now cid r : Int) (idx nm : String) :
    filterLast24Hours now
        (some [⟨some (now - 86400), some "OK", some ⟨some cid, some idx, some nm, some r⟩⟩]) =
      some [⟨some nm, r, some cid, some idx⟩] ∧
    filterLast24Hours now
        (some [⟨some (now - 86400 - 1), some "OK", some ⟨some cid, some idx, some nm, some r⟩⟩]) =
      some [] := by
  constructor
  · have hq : qualifies now ⟨some (now - 86400), some "OK",
        some ⟨some cid, some idx, some nm, some r⟩⟩ = true := by
      simp [qualifies]
    simp [filterLast24Hours, filterGo, hq, entryOf, jsOrZero]
  · have hq : qualifies now ⟨some (now - 86400 - 1), some "OK",
        some ⟨some cid, some idx, some nm, some r⟩⟩ = false := by
      simp [qualifies]
    simp [filterLast24Hours, filterGo, hq]

/-- C9 counterexample: on the null submission list the source calls
forEach on null and throws, modelled by the none result; it does not
produce the empty output. -/
theorem normalizer_null_throws : filterLast24Hours 0 none ≠ some [] := by decide

lemma filterGo_total (now : Int) :
    ∀ (subs : List Submission) (acc : List (String × SolvedProblem)),
      (∀ s ∈ subs, qualifies now s = true → s.problem ≠ none) →
      ∃ res, filterGo now subs acc = some res := by
  intro subs
  induction subs with
  | nil => intro acc _; exact ⟨acc, rfl⟩
  | cons s rest ih =>
    intro acc hall
    have htail : ∀ x ∈ rest, qualifies now x = true → x.problem ≠ none :=
      fun x hx => hall x (List.mem_cons_of_mem s hx)
    by_cases hq : qualifies now s = true
    · rcases hp : s.problem with _ | p
      · exact absurd hp (hall s (List.mem_cons_self s rest) hq)
      · by_cases hin : acc.any (fun e => decide (e.1 = problemKey p)) = true
        · obtain ⟨res, hres⟩ := ih acc htail
          exact ⟨res, by simp [filterGo, hq, hp, hin, hres]⟩
        · obtain ⟨res, hres⟩ := ih (acc ++ [(problemKey p, entryOf p)]) htail
          exact ⟨res, by simp [filterGo, hq, hp, hin, hres]⟩
    · have hq2 : qualifies now s = false := by simpa using hq
      obtain ⟨res, hres⟩ := ih acc htail
      exact ⟨res, by simp [filterGo, hq2, hres]⟩

/-- C9 amended: the normalizer never fails on a non-null submission list
whose qualifying submissions carry a problem descriptor; the empty list
gives the empty result and a missing rating defaults to 0. A null list
throws (see the counterexample), so graceful degradation does not
extend to null. -/
theorem normalizer_graceful :
    (∀ (now : Int) (subs : List Submission),
      (∀ s ∈ subs, qualifies now s = true → s.problem ≠ none) →
      ∃ out, filterLast24Hours now (some subs) = some out) ∧
    (∀ now : Int, filterLast24Hours now (some []) = some []) ∧
    (∀ (now cid : Int) (idx nm : String),
      filterLast24Hours now
          (some [⟨some now, some "OK", some ⟨some cid, some idx, some nm, none⟩⟩]) =
        some [⟨some nm, 0, some cid, some idx⟩]) := by
  refine ⟨?_, ?_, ?_⟩
  · intro now subs hall
    obtain ⟨res, hres⟩ := filterGo_total now subs [] hall
    exact ⟨res.map Prod.snd, by simp [filterLast24Hours, hres]⟩
  · intro now
    simp [filterLast24Hours, filterGo]
  · intro now cid idx nm
    have hq : qualifies now ⟨some now, some "OK",
        some ⟨some cid, some idx, some nm, none⟩⟩ = true := by
      simp [qualifies]
    simp [filterLast24Hours, filterGo, hq, entryOf, jsOrZero]

/-- Witness for the C9 theorem: totality applied to the empty list. -/
theorem normalizer_graceful_witness :
    ∃ out, filterLast24Hours 0 (some []) = some out :=
  normalizer_graceful.1 0 [] (by simp)

/-- C10: two qualifying submissions for the distinct problem pairs
(12, 3A) and (123, A) collapse into a single normalized entry, because
both concatenate to the dedup key 123A; each submission alone produces
its own entry. -/
theorem collision_merges_distinct_pairs :
    filterLast24Hours 1000000 (some [subA, subB]) =
      some [⟨some "P1", 1000, some 12, some "3A"⟩] ∧
    filterLast24Hours 1000000 (some [subA]) =
      some [⟨some "P1", 1000, some 12, some "3A"⟩] ∧
    filterLast24Hours 1000000 (some [subB]) =
      some [⟨some "P2", 1500, some 123, some "A"⟩] ∧
    problemKey ⟨some 12, some "3A", some "P1", some 1000⟩ =
      problemKey ⟨some 123, some "A", some "P2", some 1500⟩ :=
  ⟨by decide, by decide, by decide, by decide⟩

/-- C4 amended: there is no count-based mode selection; the listing is
space driven. With one-letter names, counts 5, 6, 10 and 11 all list
every problem and no remainder marker appears; when the lines do not
fit, the remainder marker has the form "...and N more" with N equal to
total minus the number listed (here 6 minus 1). -/
theorem listing_is_space_driven :
    hasSeg (utf16 "5. E\n") (generateMessage 0 probs5) = true ∧
    hasSeg (utf16 "more") (generateMessage 0 probs5) = false ∧
    hasSeg (utf16 "6. F\n") (generateMessage 0 probs6) = true ∧
    hasSeg (utf16 "more") (generateMessage 0 probs6) = false ∧
    hasSeg (utf16 "10. J\n") (generateMessage 0 probs10) = true ∧
    hasSeg (utf16 "more") (generateMessage 0 probs10) = false ∧
    hasSeg (utf16 "11. K\n") (generateMessage 0 probs11) = true ∧
    hasSeg (utf16 "more") (generateMessage 0 probs11) = false ∧
    hasSeg (utf16 "...and 5 more\n") (generateMessage 0 probs6long) = true := by
  refine ⟨by decide, by decide, by decide, by decide, by decide, by decide, by decide, by decide, by decide⟩

lemma filterGo_filter_key (now : Int) (k : String) :
    ∀ (subs : List Submission) (acc res : List (String × SolvedProblem)),
      filterGo now subs acc = some res →
      res.filter (fun e => decide (e.1 = k)) =
        acc.filter (fun e => decide (e.1 = k)) ++
        (if acc.any (fun e => decide (e.1 = k)) then [] else
          match subs.find? (fqual now k) with
          | some s =>
            match s.problem with
            | some p => [(k, entryOf p)]
            | none => []
          | none => []) := by
  intro subs
  induction subs with
  | nil =>
    intro acc res h
    simp only [filterGo, Option.some.injEq] at h
    subst h
    simp [List.find?]
  | cons s rest ih =>
    intro acc res h
    by_cases hq : qualifies now s = true
    · rcases hp : s.problem with _ | p
      · rw [filterGo, if_pos hq, hp] at h
        simp at h
      · simp only [filterGo, hq, hp, if_true] at h
        have hkeyOf : keyOf s = some (problemKey p) := by simp [keyOf, hp]
        by_cases hk : k = problemKey p
        · rw [← hk] at h hkeyOf
          have hfind : (s :: rest).find? (fqual now k) = some s := by
            simp [List.find?, fqual, hq, hkeyOf]
          by_cases hin : acc.any (fun e => decide (e.1 = k)) = true
          · rw [if_pos hin] at h
            rw [ih acc res h]
            simp only [hin, if_true]
          · rw [if_neg hin] at h
            rw [ih (acc ++ [(k, entryOf p)]) res h]
            have hinb : (acc.any fun e => decide (e.1 = k)) = false :=
              Bool.eq_false_iff.mpr hin
            have hany : ((acc ++ [(k, entryOf p)]).any fun e => decide (e.1 = k)) = true := by
              simp
            simp only [List.filter_append, hany, hinb, hfind, hp, if_true,
              Bool.false_eq_true, if_false]
            simp
        · have hfq : fqual now k s = false := by
            simp only [fqual, hq, hkeyOf, Bool.true_and, decide_eq_false_iff_not,
              Option.some.injEq]
            exact fun hh => hk hh.symm
          have hfind : (s :: rest).find? (fqual now k) = rest.find? (fqual now k) := by
            simp [List.find?, hfq]
          have hkp : ¬ (problemKey p = k) := fun hh => hk hh.symm
          by_cases hin : acc.any (fun e => decide (e.1 = problemKey p)) = true
          · rw [if_pos hin] at h
            rw [ih acc res h, hfind]
          · rw [if_neg hin] at h
            rw [ih (acc ++ [(problemKey p, entryOf p)]) res h, hfind]
            have hany : ((acc ++ [(problemKey p, entryOf p)]).any fun e => decide (e.1 = k)) =
                (acc.any fun e => decide (e.1 = k)) := by
              simp [hkp]
            simp only [List.filter_append, hany]
            simp [hkp]
    · have hq2 : qualifies now s = false := by simpa using hq
      simp only [filterGo, hq2, Bool.false_eq_true, if_false] at h
      have hfq : fqual now k s = false := by simp [fqual, hq2]
      have hfind : (s :: rest).find? (fqual now k) = rest.find? (fqual now k) := by
        simp [List.find?, hfq]
      rw [ih acc res h, hfind]

lemma filterGo_keys (now : Int) :
    ∀ (subs : List Submission) (acc res : List (String × SolvedProblem)),
      (∀ e ∈ acc, e.1 = entryKey e.2) →
      filterGo now subs acc = some res →
      ∀ e ∈ res, e.1 = entryKey e.2 := by
  intro subs
  induction subs with
  | nil =>
    intro acc res hacc h
    simp only [filterGo, Option.some.injEq] at h
    subst h
    exact hacc
  | cons s rest ih =>
    intro acc res hacc h
    by_cases hq : qualifies now s = true
    · rcases hp : s.problem with _ | p
      · rw [filterGo, if_pos hq, hp] at h
        simp at h
      · simp only [filterGo, hq, hp, if_true] at h
        by_cases hin : acc.any (fun e => decide (e.1 = problemKey p)) = true
        · rw [if_pos hin] at h
          exact ih acc res hacc h
        · rw [if_neg hin] at h
          refine ih (acc ++ [(problemKey p, entryOf p)]) res ?_ h
          intro e he
          rcases List.mem_append.mp he with he1 | he2
          · exact hacc e he1
          · simp only [List.mem_singleton] at he2
            subst he2
            rfl
    · have hq2 : qualifies now s = false := by simpa using hq
      simp only [filterGo, hq2, Bool.false_eq_true, if_false] at h
      exact ih acc res hacc h

lemma map_snd_filter (k : String) :
    ∀ (l : List (String × SolvedProblem)),
      (∀ e ∈ l, e.1 = entryKey e.2) →
      (l.map Prod.snd).filter (fun v => decide (entryKey v = k)) =
        (l.filter (fun e => decide (e.1 = k))).map Prod.snd := by
  intro l
  induction l with
  | nil => intro _; simp
  | cons e t ih =>
    intro hall
    have he := hall e (List.mem_cons_self e t)
    have ht := ih (fun x hx => hall x (List.mem_cons_of_mem e hx))
    by_cases hc : entryKey e.2 = k
    · simp [List.filter_cons, hc, he, ht]
    · simp [List.filter_cons, hc, he, ht]

/-- C8 amended: deduplication is by the concatenated string key, not by
the pair: for every key string k, the normalizer output contains
exactly the entries built from the first qualifying submission whose
concatenated key equals k — one entry when such a submission exists,
none otherwise. Distinct (contestId, index) pairs that concatenate to
the same string share one slot. -/
theorem dedup_by_string_key (now : Int) (subs : List Submission)
    (out : List SolvedProblem) (k : String)
    (h : filterLast24Hours now (some subs) = some out) :
    out.filter (fun v => decide (entryKey v = k)) =
      match subs.find? (fqual now k) with
      | some s =>
        match s.problem with
        | some p => [entryOf p]
        | none => []
      | none => [] := by
  rcases hg : filterGo now subs [] with _ | res
  · simp [filterLast24Hours, hg] at h
  · have hout : out = res.map Prod.snd := by
      simp only [filterLast24Hours, hg, Option.map_some', Option.some.injEq] at h
      exact h.symm
    subst hout
    have hkeys := filterGo_keys now subs [] res (by simp) hg
    have hmain := filterGo_filter_key now k subs [] res hg
    rw [map_snd_filter k res hkeys, hmain]
    simp only [List.filter_nil, List.any_nil, Bool.false_eq_true, if_false, List.nil_append]
    cases hfind : subs.find? (fqual now k) with
    | none => simp
    | some s =>
      cases hp : s.problem with
      | none => simp [hp]
      | some p => simp [hp]

/-- Witness for the C8 theorem: a batch with two qualifying submissions
for one key keeps exactly the first arrival's data. -/
theorem dedup_by_string_key_witness :
    ([⟨some "X", 1000, some 1, some "A"⟩] : List SolvedProblem).filter
        (fun v => decide (entryKey v = "1A")) =
      match ([subDupX, subDupY] : List Submission).find? (fqual 1000000 "1A") with
      | some s =>
        match s.problem with
        | some p => [entryOf p]
        | none => []
      | none => [] :=
  dedup_by_string_key 1000000 [subDupX, subDupY]
    [⟨some "X", 1000, some 1, some "A"⟩] "1A" (by decide)

/-- C8 counterexample: a batch with two qualifying submissions for the
pair (12, 3A) produces zero entries for that pair, because an earlier
submission for the distinct pair (123, A) already claimed the
concatenated key 123A; so the output is not built from the first
occurrence of the pair. -/
theorem dedup_pair_key_counterexample :
    filterLast24Hours 1000000 (some [subColA, subColB, subColB]) =
      some [⟨some "X", 1000, some 123, some "A"⟩] ∧
    ((filterLast24Hours 1000000 (some [subColA, subColB, subColB])).getD []).filter
        (fun v => decide (v.contestId = some 12 ∧ v.index = some "3A")) = [] :=
  ⟨by decide, by decide⟩
